import Mathlib

/-!
Verification of the anomaly-detection dashboard front end (src/src/App.js).

The repository is a single React component file.  The logic verified here is:

o the score-to-geometry projector of HyperSphereVisualization, which maps
  each transaction record to a point at a radial distance determined by its
  parsed anomaly score and its is_anomaly flag;
o the severity-to-color classifier getSeverityClass;
o the sort-order toggle handleSort over the transaction list;
o the fetchData error boundary and the render dispatch of App.

Modelling conventions.  JavaScript numbers are modelled by rationals.  A value
that may be NaN (the result of parseFloat on a non-numeric string, and every
arithmetic expression it flows into) is modelled by Option ℚ, where none
stands for NaN.  A numeric string field is represented by its parseFloat
image: some q when it parses to the number q, none when parseFloat yields
NaN.  Math.random, Math.cos and Math.sin are external library functions; the
projector takes them as parameters (an angle source indexed by position, and
cosine and sine evaluators), which keeps every definition computable while
leaving the randomness of the angle abstract, exactly as the code leaves it
to the library.  Missing object fields reached through optional chaining
(data?.transactions) are modelled by Option.
-/

namespace AnomalyDashboard

/-- A transaction record as delivered by the anomaly-detection endpoint.
String identifier fields are kept as strings; value_eth and
anomaly_percentage are numeric strings, represented by their parseFloat
image (none models a string that parses to NaN). -/
structure Transaction where
  timestamp : String
  transaction_hash : String
  from_address : String
  to_address : String
  value_eth : Option ℚ
  anomaly_percentage : Option ℚ
  is_anomaly : Bool
  severity : String
  deriving Repr, DecidableEq

/-- The JSON response body: total_transactions and the transactions array.
Either field may be missing (optional chaining in the component), hence
Option. -/
structure ResponseData where
  total_transactions : Option ℤ
  transactions : Option (List Transaction)
  deriving Repr, DecidableEq

/-- parseFloat on a numeric-string field.  Fields are already represented by
their parseFloat image, so this is the identity on the representation; it is
kept to mirror the call sites in the source. -/
def parseFloat (s : Option ℚ) : Option ℚ := s

/-- Layout width from the source: const width = 400. -/
def width : ℚ := 400

/-- Layout height from the source: const height = 400. -/
def height : ℚ := 400

/-- Outer radius from the source: Math.min(width, height) / 2 - 40. -/
def radius : ℚ := min width height / 2 - 40

/-- Inner radius from the source: radius * 0.6. -/
def innerRadius : ℚ := radius * (6 / 10)

/-- The distance expression of the projector, on an already-parsed numeric
score: tx.is_anomaly ? (innerRadius + (score / 100) * (radius - innerRadius))
: ((score / 100) * innerRadius * 0.9), with the outer radius R and inner
radius r passed explicitly. -/
def distanceFormula (isAnomaly : Bool) (s R r : ℚ) : ℚ :=
  if isAnomaly then r + s / 100 * (R - r) else s / 100 * r * (9 / 10)

/-- The distance computed by the projector on the parseFloat result of the
score field.  A NaN score (none) propagates through the arithmetic to a NaN
distance. -/
def projDistance (isAnomaly : Bool) (score : Option ℚ) (R r : ℚ) : Option ℚ :=
  match score with
  | none => none
  | some s => some (distanceFormula isAnomaly s R r)

/-- A projected point: x, y coordinates (NaN-propagating, hence Option), the
parsed score, and the is_anomaly flag carried through from the record. -/
structure ProjectedPoint where
  x : Option ℚ
  y : Option ℚ
  score : Option ℚ
  isAnomaly : Bool
  deriving Repr, DecidableEq

/-- The polar-coordinate conversion of HyperSphereVisualization:
data.transactions.map over the records, parsing the score, drawing an angle
from the random source, computing the ternary distance, and converting to
Cartesian coordinates.  cosF and sinF stand for Math.cos and Math.sin,
angleOf for the Math.random() * 2 * PI draw made for the point at each
position. -/
def project (cosF sinF : ℚ → ℚ) (angleOf : ℕ → ℚ) (txs : List Transaction) :
    List ProjectedPoint :=
  txs.enum.map fun p =>
    let score := parseFloat p.2.anomaly_percentage
    let angle := angleOf p.1
    let dist := projDistance p.2.is_anomaly score radius innerRadius
    { x := dist.map fun d => cosF angle * d
      y := dist.map fun d => sinF angle * d
      score := score
      isAnomaly := p.2.is_anomaly }

/-- The distance assigned by the app projector to a single record, at the
fixed layout radii of the component. -/
def txDistance (tx : Transaction) : Option ℚ :=
  projDistance tx.is_anomaly (parseFloat tx.anomaly_percentage) radius innerRadius

theorem radius_eq : radius = 160 := by norm_num [radius, width, height]

theorem innerRadius_eq : innerRadius = 96 := by norm_num [innerRadius, radius_eq]

/-- C1: for a record with is_anomaly = true and a parsed score in [0, 100],
the projector computes distance = innerRadius + (score / 100) * (radius -
innerRadius), and this distance lies in [innerRadius, radius]. -/
theorem anomaly_distance_in_band (tx : Transaction) (s : ℚ)
    (hA : tx.is_anomaly = true) (hs : parseFloat tx.anomaly_percentage = some s)
    (h0 : 0 ≤ s) (h100 : s ≤ 100) :
    txDistance tx = some (innerRadius + s / 100 * (radius - innerRadius)) ∧
      innerRadius ≤ innerRadius + s / 100 * (radius - innerRadius) ∧
      innerRadius + s / 100 * (radius - innerRadius) ≤ radius := by
  refine ⟨?_, ?_, ?_⟩
  · simp [txDistance, projDistance, hs, hA, distanceFormula]
  · rw [radius_eq, innerRadius_eq]
    nlinarith
  · rw [radius_eq, innerRadius_eq]
    nlinarith

/-- Witness for C1 at score 90: the projected distance is 153.6, inside
[96, 160]. -/
theorem anomaly_distance_in_band_witness :
    txDistance ⟨"t", "h", "f", "o", some 1, some 90, true, "HIGH"⟩ =
        some (innerRadius + 90 / 100 * (radius - innerRadius)) ∧
      innerRadius ≤ innerRadius + 90 / 100 * (radius - innerRadius) ∧
      innerRadius + 90 / 100 * (radius - innerRadius) ≤ radius :=
  anomaly_distance_in_band ⟨"t", "h", "f", "o", some 1, some 90, true, "HIGH"⟩ 90
    rfl rfl (by norm_num) (by norm_num)

/-- C2: for a record with is_anomaly = false and a parsed score in [0, 100],
the projector computes distance = (score / 100) * innerRadius * 0.9, and this
distance lies in [0, 0.9 * innerRadius]. -/
theorem normal_distance_in_band (tx : Transaction) (s : ℚ)
    (hA : tx.is_anomaly = false) (hs : parseFloat tx.anomaly_percentage = some s)
    (h0 : 0 ≤ s) (h100 : s ≤ 100) :
    txDistance tx = some (s / 100 * innerRadius * (9 / 10)) ∧
      0 ≤ s / 100 * innerRadius * (9 / 10) ∧
      s / 100 * innerRadius * (9 / 10) ≤ 9 / 10 * innerRadius := by
  refine ⟨?_, ?_, ?_⟩
  · simp [txDistance, projDistance, hs, hA, distanceFormula]
  · rw [innerRadius_eq]
    nlinarith
  · rw [innerRadius_eq]
    nlinarith

/-- Witness for C2 at score 10: the projected distance is 8.64, inside
[0, 86.4]. -/
theorem normal_distance_in_band_witness :
    txDistance ⟨"t", "h", "f", "o", some 1, some 10, false, "LOW"⟩ =
        some (10 / 100 * innerRadius * (9 / 10)) ∧
      0 ≤ 10 / 100 * innerRadius * (9 / 10) ∧
      10 / 100 * innerRadius * (9 / 10) ≤ 9 / 10 * innerRadius :=
  normal_distance_in_band ⟨"t", "h", "f", "o", some 1, some 10, false, "LOW"⟩ 10
    rfl rfl (by norm_num) (by norm_num)

/-- C10: within each class (fixed is_anomaly flag), the projected distance is
strictly increasing in the parsed score, for any layout with
radius > innerRadius > 0. -/
theorem distance_strict_mono (flag : Bool) (s1 s2 R r : ℚ)
    (hr : 0 < r) (hRr : r < R) (hs : s1 < s2) :
    distanceFormula flag s1 R r < distanceFormula flag s2 R r := by
  cases flag <;> simp only [distanceFormula, if_true, if_false, Bool.false_eq_true,
    reduceIte] <;> nlinarith

/-- Witness for C10 at the app layout radii, scores 10 < 90, anomalous
class. -/
theorem distance_strict_mono_witness :
    (0 : ℚ) < 96 ∧ (96 : ℚ) < 160 ∧ (10 : ℚ) < 90 ∧
      distanceFormula true 10 160 96 < distanceFormula true 90 160 96 :=
  ⟨by norm_num, by norm_num, by norm_num,
    distance_strict_mono true 10 90 160 96 (by norm_num) (by norm_num) (by norm_num)⟩

/-- An anomalous record with parsed score 0. -/
def anomalyTx0 : Transaction :=
  ⟨"t", "h", "f", "o", some 1, some 0, true, "LOW"⟩

/-- A normal record with parsed score 200 (outside [0, 100]). -/
def normalTx200 : Transaction :=
  ⟨"t", "h", "f", "o", some 1, some 200, false, "HIGH"⟩

/-- Counterexample to C3 as stated: with no restriction on scores, an
anomalous record with score 0 is projected at distance 96 while a normal
record with score 200 is projected at distance 172.8, so the anomalous
distance is not strictly greater than the normal one. -/
theorem separation_counterexample :
    anomalyTx0.is_anomaly = true ∧ normalTx200.is_anomaly = false ∧
      txDistance anomalyTx0 = some 96 ∧ txDistance normalTx200 = some (864 / 5) ∧
      ¬ ((96 : ℚ) > 864 / 5) := by
  refine ⟨rfl, rfl, ?_, ?_, by norm_num⟩ <;>
    norm_num [anomalyTx0, normalTx200, txDistance, projDistance, distanceFormula,
      parseFloat, radius_eq, innerRadius_eq]

/-- C3 amended: for records whose parsed scores both lie in [0, 100], the
anomalous distance is strictly greater than the normal distance (the bands
[innerRadius, radius] and [0, 0.9 * innerRadius] are disjoint). -/
theorem separation_in_range (txA txN : Transaction) (sA sN : ℚ)
    (hA : txA.is_anomaly = true) (hN : txN.is_anomaly = false)
    (hsA : parseFloat txA.anomaly_percentage = some sA)
    (hsN : parseFloat txN.anomaly_percentage = some sN)
    (h0A : 0 ≤ sA) (h100A : sA ≤ 100) (h0N : 0 ≤ sN) (h100N : sN ≤ 100) :
    txDistance txA = some (distanceFormula true sA radius innerRadius) ∧
      txDistance txN = some (distanceFormula false sN radius innerRadius) ∧
      distanceFormula false sN radius innerRadius <
        distanceFormula true sA radius innerRadius := by
  refine ⟨by simp [txDistance, projDistance, hsA, hA], by simp [txDistance, projDistance, hsN, hN], ?_⟩
  simp only [distanceFormula, if_true, Bool.false_eq_true, reduceIte]
  rw [radius_eq, innerRadius_eq]
  nlinarith

/-- Witness for the amended C3 at scores 50 and 50. -/
theorem separation_in_range_witness :
    txDistance ⟨"t", "h", "f", "o", some 1, some 50, true, "MEDIUM"⟩ =
        some (distanceFormula true 50 radius innerRadius) ∧
      txDistance ⟨"t", "h", "f", "o", some 1, some 50, false, "MEDIUM"⟩ =
        some (distanceFormula false 50 radius innerRadius) ∧
      distanceFormula false 50 radius innerRadius <
        distanceFormula true 50 radius innerRadius :=
  separation_in_range ⟨"t", "h", "f", "o", some 1, some 50, true, "MEDIUM"⟩
    ⟨"t", "h", "f", "o", some 1, some 50, false, "MEDIUM"⟩ 50 50
    rfl rfl rfl rfl (by norm_num) (by norm_num) (by norm_num) (by norm_num)

/-- C7: the projector yields exactly one point per record, and the point at
each index carries the parsed score and the is_anomaly flag of the record at
the same index (stated via the map projections and via positional lookup). -/
theorem project_index_aligned (cosF sinF : ℚ → ℚ) (angleOf : ℕ → ℚ)
    (txs : List Transaction) :
    (project cosF sinF angleOf txs).length = txs.length ∧
      (project cosF sinF angleOf txs).map (fun pt => (pt.score, pt.isAnomaly)) =
        txs.map (fun tx => (parseFloat tx.anomaly_percentage, tx.is_anomaly)) ∧
      ∀ i : ℕ, ((project cosF sinF angleOf txs)[i]?).map
          (fun pt => (pt.score, pt.isAnomaly)) =
        (txs[i]?).map (fun tx => (parseFloat tx.anomaly_percentage, tx.is_anomaly)) := by
  have hmap : (project cosF sinF angleOf txs).map (fun pt => (pt.score, pt.isAnomaly)) =
      txs.map (fun tx => (parseFloat tx.anomaly_percentage, tx.is_anomaly)) := by
    simp only [project, List.map_map]
    conv_rhs => rw [← List.enum_map_snd txs, List.map_map]
    rfl
  refine ⟨by simp [project], hmap, fun i => ?_⟩
  rw [← List.getElem?_map, hmap, List.getElem?_map]

/-- The severity classifier from the source: a switch over the severity
string, each case returning a theme-dependent Tailwind text-color class, with
a gray default.  Written as the equivalent chain of string-equality tests in
switch order. -/
def getSeverityClass (severity : String) (isDark : Bool) : String :=
  if severity = "HIGH" then if isDark then "text-red-400" else "text-red-600"
  else if severity = "MEDIUM-HIGH" then if isDark then "text-orange-400" else "text-orange-500"
  else if severity = "MEDIUM" then if isDark then "text-yellow-400" else "text-yellow-500"
  else if severity = "LOW-MEDIUM" then if isDark then "text-blue-400" else "text-blue-400"
  else if severity = "LOW" then if isDark then "text-blue-400" else "text-blue-500"
  else if severity = "VERY-LOW" then if isDark then "text-green-400" else "text-green-500"
  else if isDark then "text-gray-400" else "text-gray-500"

/-- The abstract color tags of the spec table. -/
inductive Tag where
  | redStrong | redMuted
  | orangeStrong | orangeMuted
  | yellowStrong | yellowMuted
  | blueWeak | blueStrong | blueMuted
  | greenStrong | greenMuted
  | grayStrong | grayMuted
  deriving Repr, DecidableEq

/-- The concrete class string the component uses for each abstract tag. -/
def tagClass : Tag → String
  | .redStrong => "text-red-600"
  | .redMuted => "text-red-400"
  | .orangeStrong => "text-orange-500"
  | .orangeMuted => "text-orange-400"
  | .yellowStrong => "text-yellow-500"
  | .yellowMuted => "text-yellow-400"
  | .blueWeak => "text-blue-400"
  | .blueStrong => "text-blue-500"
  | .blueMuted => "text-blue-400"
  | .greenStrong => "text-green-500"
  | .greenMuted => "text-green-400"
  | .grayStrong => "text-gray-500"
  | .grayMuted => "text-gray-400"

/-- The severity table as written in the spec (section 4.2), row by row:
every enumerated severity maps to its strong (light theme) or muted / weak
(dark theme) tag, anything else to the gray default. -/
def classifySpec (severity : String) (isDark : Bool) : Tag :=
  if severity = "HIGH" then if isDark then .redMuted else .redStrong
  else if severity = "MEDIUM-HIGH" then if isDark then .orangeMuted else .orangeStrong
  else if severity = "MEDIUM" then if isDark then .yellowMuted else .yellowStrong
  else if severity = "LOW-MEDIUM" then if isDark then .blueMuted else .blueWeak
  else if severity = "LOW" then if isDark then .blueMuted else .blueStrong
  else if severity = "VERY-LOW" then if isDark then .greenMuted else .greenStrong
  else if isDark then .grayMuted else .grayStrong

/-- The enumerated severity set of the spec. -/
def knownSeverities : List String :=
  ["HIGH", "MEDIUM-HIGH", "MEDIUM", "LOW-MEDIUM", "LOW", "VERY-LOW"]

/-- C4: the classifier is total and agrees with the spec table on every
severity string and both theme flags, and any severity outside the
enumerated set gets the gray default tag of the theme. -/
theorem getSeverityClass_matches_table (severity : String) (isDark : Bool) :
    getSeverityClass severity isDark = tagClass (classifySpec severity isDark) ∧
      (severity ∉ knownSeverities →
        classifySpec severity isDark = if isDark then Tag.grayMuted else Tag.grayStrong) := by
  constructor
  · unfold getSeverityClass classifySpec
    split_ifs <;> cases isDark <;> rfl
  · intro h
    simp only [knownSeverities, List.mem_cons, List.not_mem_nil, or_false, not_or] at h
    obtain ⟨h1, h2, h3, h4, h5, h6⟩ := h
    unfold classifySpec
    split_ifs <;> rfl

/-- Witness for C4 at the unrecognized severity CRITICAL in the light theme:
the classifier returns the gray default. -/
theorem getSeverityClass_matches_table_witness :
    getSeverityClass "CRITICAL" false = tagClass (classifySpec "CRITICAL" false) ∧
      classifySpec "CRITICAL" false = Tag.grayStrong :=
  ⟨(getSeverityClass_matches_table "CRITICAL" false).1,
    (getSeverityClass_matches_table "CRITICAL" false).2 (by decide)⟩

/-- The two values of the sortOrder state: useState starts it at desc. -/
inductive SortOrder where
  | desc
  | asc
  deriving Repr, DecidableEq

/-- The component state of App: data, loading, error, darkMode, sortOrder. -/
structure AppState where
  data : Option ResponseData
  loading : Bool
  error : Option String
  darkMode : Bool
  sortOrder : SortOrder
  deriving Repr, DecidableEq

/-- The useState initial values of App: data null, loading true, error null,
darkMode false, sortOrder desc. -/
def initialState : AppState :=
  { data := none, loading := true, error := none, darkMode := false,
    sortOrder := SortOrder.desc }

/-- The comparator of handleSort, as a may-sort-before test: sortComp ord a b
is true when the JS comparator result (scoreB - scoreA for desc,
scoreA - scoreB for asc) is at most zero.  When either parseFloat result is
NaN the comparator result is NaN, which Array.prototype.sort treats as +0
(elements compare equal), hence true in both directions. -/
def sortComp (ord : SortOrder) (a b : Transaction) : Bool :=
  match parseFloat a.anomaly_percentage, parseFloat b.anomaly_percentage with
  | some x, some y =>
    match ord with
    | SortOrder.desc => decide (y ≤ x)
    | SortOrder.asc => decide (x ≤ y)
  | _, _ => true

/-- Insertion of an element into a list sorted by a boolean may-sort-before
test; building block of the comparison-sort model of Array.prototype.sort. -/
def insertS {α : Type} (le : α → α → Bool) (x : α) : List α → List α
  | [] => [x]
  | y :: ys => if le x y then x :: y :: ys else y :: insertS le x ys

/-- Comparison-sort model of Array.prototype.sort with a comparator: a
stable insertion sort.  Any comparison sort satisfies the properties proved
below, which is all ECMA-262 guarantees when the comparator is consistent. -/
def sortS {α : Type} (le : α → α → Bool) : List α → List α
  | [] => []
  | x :: xs => insertS le x (sortS le xs)

theorem insertS_perm {α : Type} (le : α → α → Bool) (x : α) :
    ∀ l : List α, (insertS le x l).Perm (x :: l)
  | [] => List.Perm.refl _
  | y :: ys => by
    unfold insertS
    by_cases h : le x y = true
    · rw [if_pos h]
    · rw [if_neg h]
      exact ((insertS_perm le x ys).cons y).trans (List.Perm.swap x y ys)

theorem sortS_perm {α : Type} (le : α → α → Bool) :
    ∀ l : List α, (sortS le l).Perm l
  | [] => List.Perm.refl _
  | x :: xs => by
    unfold sortS
    exact (insertS_perm le x (sortS le xs)).trans ((sortS_perm le xs).cons x)

theorem insertS_pairwise {α : Type} (le : α → α → Bool) (x : α) :
    ∀ l : List α,
      (∀ a ∈ l, le x a = true ∨ le a x = true) →
      (∀ a ∈ l, ∀ b ∈ l, le x a = true → le a b = true → le x b = true) →
      l.Pairwise (fun a b => le a b = true) →
      (insertS le x l).Pairwise (fun a b => le a b = true)
  | [], _, _, _ => by simp [insertS]
  | y :: ys, htot, htrans, hl => by
    rw [List.pairwise_cons] at hl
    obtain ⟨hy, hys⟩ := hl
    unfold insertS
    by_cases hxy : le x y = true
    · rw [if_pos hxy]
      refine List.Pairwise.cons ?_ (List.Pairwise.cons hy hys)
      intro b hb
      rcases List.mem_cons.mp hb with rfl | hb2
      · exact hxy
      · exact htrans y (List.mem_cons_self _ _) b (List.mem_cons_of_mem _ hb2) hxy (hy b hb2)
    · rw [if_neg hxy]
      refine List.Pairwise.cons ?_ ?_
      · intro b hb
        have hb' : b ∈ x :: ys := (insertS_perm le x ys).mem_iff.mp hb
        rcases List.mem_cons.mp hb' with rfl | hb2
        · rcases htot y (List.mem_cons_self _ _) with h | h
          · exact absurd h hxy
          · exact h
        · exact hy b hb2
      · exact insertS_pairwise le x ys
          (fun a ha => htot a (List.mem_cons_of_mem _ ha))
          (fun a ha b hb =>
            htrans a (List.mem_cons_of_mem _ ha) b (List.mem_cons_of_mem _ hb))
          hys

theorem sortS_pairwise {α : Type} (le : α → α → Bool) :
    ∀ l : List α,
      (∀ a ∈ l, ∀ b ∈ l, le a b = true ∨ le b a = true) →
      (∀ a ∈ l, ∀ b ∈ l, ∀ c ∈ l, le a b = true → le b c = true → le a c = true) →
      (sortS le l).Pairwise (fun a b => le a b = true)
  | [], _, _ => by simp [sortS]
  | x :: xs, htot, htrans => by
    unfold sortS
    have hsub : ∀ a ∈ sortS le xs, a ∈ x :: xs := fun a ha =>
      List.mem_cons_of_mem _ ((sortS_perm le xs).subset ha)
    exact insertS_pairwise le x (sortS le xs)
      (fun a ha => htot x (List.mem_cons_self _ _) a (hsub a ha))
      (fun a ha b hb =>
        htrans x (List.mem_cons_self _ _) a (hsub a ha) b (hsub b hb))
      (sortS_pairwise le xs
        (fun a ha b hb =>
          htot a (List.mem_cons_of_mem _ ha) b (List.mem_cons_of_mem _ hb))
        (fun a ha b hb c hc =>
          htrans a (List.mem_cons_of_mem _ ha) b (List.mem_cons_of_mem _ hb)
            c (List.mem_cons_of_mem _ hc)))

/-- The parsed score of a record, read off the parseFloat image; meaningful
under the hypothesis that the score parses (isSome). -/
def txScore (tx : Transaction) : ℚ := (parseFloat tx.anomaly_percentage).getD 0

theorem sortComp_total (ord : SortOrder) {a b : Transaction}
    (ha : (parseFloat a.anomaly_percentage).isSome = true)
    (hb : (parseFloat b.anomaly_percentage).isSome = true) :
    sortComp ord a b = true ∨ sortComp ord b a = true := by
  obtain ⟨x, hx⟩ := Option.isSome_iff_exists.mp ha
  obtain ⟨y, hy⟩ := Option.isSome_iff_exists.mp hb
  cases ord <;> simp [sortComp, hx, hy] <;> [exact le_total y x; exact le_total x y]

theorem sortComp_trans (ord : SortOrder) {a b c : Transaction}
    (ha : (parseFloat a.anomaly_percentage).isSome = true)
    (hb : (parseFloat b.anomaly_percentage).isSome = true)
    (hc : (parseFloat c.anomaly_percentage).isSome = true) :
    sortComp ord a b = true → sortComp ord b c = true → sortComp ord a c = true := by
  obtain ⟨x, hx⟩ := Option.isSome_iff_exists.mp ha
  obtain ⟨y, hy⟩ := Option.isSome_iff_exists.mp hb
  obtain ⟨z, hz⟩ := Option.isSome_iff_exists.mp hc
  cases ord <;> simp [sortComp, hx, hy, hz] <;> intro h1 h2
  · exact le_trans h2 h1
  · exact le_trans h1 h2

theorem sortComp_desc_le {a b : Transaction}
    (ha : (parseFloat a.anomaly_percentage).isSome = true)
    (hb : (parseFloat b.anomaly_percentage).isSome = true)
    (h : sortComp SortOrder.desc a b = true) : txScore b ≤ txScore a := by
  obtain ⟨x, hx⟩ := Option.isSome_iff_exists.mp ha
  obtain ⟨y, hy⟩ := Option.isSome_iff_exists.mp hb
  simp [sortComp, hx, hy] at h
  simpa [txScore, hx, hy] using h

theorem sortComp_asc_le {a b : Transaction}
    (ha : (parseFloat a.anomaly_percentage).isSome = true)
    (hb : (parseFloat b.anomaly_percentage).isSome = true)
    (h : sortComp SortOrder.asc a b = true) : txScore a ≤ txScore b := by
  obtain ⟨x, hx⟩ := Option.isSome_iff_exists.mp ha
  obtain ⟨y, hy⟩ := Option.isSome_iff_exists.mp hb
  simp [sortComp, hx, hy] at h
  simpa [txScore, hx, hy] using h

theorem sortS_sorted_desc (txs : List Transaction)
    (hnum : ∀ tx ∈ txs, (parseFloat tx.anomaly_percentage).isSome = true) :
    (sortS (sortComp SortOrder.desc) txs).Pairwise
      (fun a b => txScore b ≤ txScore a) := by
  have hp := sortS_pairwise (sortComp SortOrder.desc) txs
    (fun a ha b hb => sortComp_total _ (hnum a ha) (hnum b hb))
    (fun a ha b hb c hc =>
      sortComp_trans _ (hnum a ha) (hnum b hb) (hnum c hc))
  exact hp.imp_of_mem fun {a b} ha hb h =>
    sortComp_desc_le (hnum a ((sortS_perm _ txs).subset ha))
      (hnum b ((sortS_perm _ txs).subset hb)) h

theorem sortS_sorted_asc (txs : List Transaction)
    (hnum : ∀ tx ∈ txs, (parseFloat tx.anomaly_percentage).isSome = true) :
    (sortS (sortComp SortOrder.asc) txs).Pairwise
      (fun a b => txScore a ≤ txScore b) := by
  have hp := sortS_pairwise (sortComp SortOrder.asc) txs
    (fun a ha b hb => sortComp_total _ (hnum a ha) (hnum b hb))
    (fun a ha b hb c hc =>
      sortComp_trans _ (hnum a ha) (hnum b hb) (hnum c hc))
  exact hp.imp_of_mem fun {a b} ha hb h =>
    sortComp_asc_le (hnum a ((sortS_perm _ txs).subset ha))
      (hnum b ((sortS_perm _ txs).subset hb)) h

/-- handleSort from the source: return unchanged when data?.transactions is
absent; otherwise sort a copy of the transaction array with the
score comparator for the current sortOrder, store it back into data, and
flip sortOrder. -/
def handleSort (st : AppState) : AppState :=
  match st.data with
  | none => st
  | some d =>
    match d.transactions with
    | none => st
    | some txs =>
      let sorted := sortS (sortComp st.sortOrder) txs
      { st with
        data := some { d with transactions := some sorted }
        sortOrder := match st.sortOrder with
          | SortOrder.desc => SortOrder.asc
          | SortOrder.asc => SortOrder.desc }

/-- C5: the sort toggle keeps a two-valued state initialized to descending;
invoked on a present, non-empty record list with numeric parsed scores, it
replaces the displayed list with a copy sorted by parsed score according to
the current state (descending when desc, ascending when asc) and flips the
state. -/
theorem handleSort_contract :
    initialState.sortOrder = SortOrder.desc ∧
      ∀ (st : AppState) (d : ResponseData) (txs : List Transaction),
        st.data = some d → d.transactions = some txs → txs ≠ [] →
        (∀ tx ∈ txs, (parseFloat tx.anomaly_percentage).isSome = true) →
        ∃ txs' : List Transaction,
          (handleSort st).data = some { d with transactions := some txs' } ∧
            txs'.Perm txs ∧
            (st.sortOrder = SortOrder.desc →
              txs'.Pairwise (fun a b => txScore b ≤ txScore a) ∧
                (handleSort st).sortOrder = SortOrder.asc) ∧
            (st.sortOrder = SortOrder.asc →
              txs'.Pairwise (fun a b => txScore a ≤ txScore b) ∧
                (handleSort st).sortOrder = SortOrder.desc) := by
  refine ⟨rfl, ?_⟩
  intro st d txs hd htx _hne hnum
  refine ⟨sortS (sortComp st.sortOrder) txs, ?_, sortS_perm _ txs, ?_, ?_⟩
  · simp [handleSort, hd, htx]
  · intro hord
    rw [hord]
    exact ⟨sortS_sorted_desc txs hnum, by simp [handleSort, hd, htx, hord]⟩
  · intro hord
    rw [hord]
    exact ⟨sortS_sorted_asc txs hnum, by simp [handleSort, hd, htx, hord]⟩

/-- A normal record with parsed score 10, used to witness the sorting
claims. -/
def txLow : Transaction := ⟨"t1", "h1", "f1", "o1", some 1, some 10, false, "LOW"⟩

/-- An anomalous record with parsed score 90, used to witness the sorting
claims. -/
def txHigh : Transaction := ⟨"t2", "h2", "f2", "o2", some 2, some 90, true, "HIGH"⟩

/-- A response carrying the two witness records. -/
def witData : ResponseData := ⟨some 2, some [txLow, txHigh]⟩

/-- A loaded App state in the initial descending sort order. -/
def witSortState : AppState := ⟨some witData, false, none, false, SortOrder.desc⟩

/-- Witness for C5 on a concrete two-record state in descending order. -/
theorem handleSort_contract_witness :
    witSortState.data = some witData ∧
      witData.transactions = some [txLow, txHigh] ∧
      ([txLow, txHigh] : List Transaction) ≠ [] ∧
      (∀ tx ∈ [txLow, txHigh], (parseFloat tx.anomaly_percentage).isSome = true) ∧
      ∃ txs' : List Transaction,
        (handleSort witSortState).data = some { witData with transactions := some txs' } ∧
          txs'.Perm [txLow, txHigh] ∧
          (witSortState.sortOrder = SortOrder.desc →
            txs'.Pairwise (fun a b => txScore b ≤ txScore a) ∧
              (handleSort witSortState).sortOrder = SortOrder.asc) ∧
          (witSortState.sortOrder = SortOrder.asc →
            txs'.Pairwise (fun a b => txScore a ≤ txScore b) ∧
              (handleSort witSortState).sortOrder = SortOrder.desc) :=
  ⟨rfl, rfl, by decide, by decide,
    handleSort_contract.2 witSortState witData [txLow, txHigh] rfl rfl (by decide) (by decide)⟩

/-- C6: from the initial descending state, two successive sort toggle
invocations on a record list with numeric parsed scores leave the displayed
list in ascending order by parsed score. -/
theorem handleSort_twice_ascending (st : AppState) (d : ResponseData)
    (txs : List Transaction) (hord : st.sortOrder = SortOrder.desc)
    (hd : st.data = some d) (htx : d.transactions = some txs)
    (hnum : ∀ tx ∈ txs, (parseFloat tx.anomaly_percentage).isSome = true) :
    ∃ txs'' : List Transaction,
      (handleSort (handleSort st)).data = some { d with transactions := some txs'' } ∧
        txs''.Perm txs ∧ txs''.Pairwise (fun a b => txScore a ≤ txScore b) := by
  have h1 : handleSort st =
      { st with
        data :=
          some { d with transactions := some (sortS (sortComp SortOrder.desc) txs) }
        sortOrder := SortOrder.asc } := by
    simp [handleSort, hd, htx, hord]
  have hnum1 : ∀ tx ∈ sortS (sortComp SortOrder.desc) txs,
      (parseFloat tx.anomaly_percentage).isSome = true :=
    fun tx h => hnum tx ((sortS_perm _ txs).subset h)
  refine ⟨sortS (sortComp SortOrder.asc) (sortS (sortComp SortOrder.desc) txs),
    ?_, ?_, ?_⟩
  · rw [h1]
    simp [handleSort]
  · exact (sortS_perm _ _).trans (sortS_perm _ txs)
  · exact sortS_sorted_asc _ hnum1

/-- Witness for C6 on the concrete two-record descending state. -/
theorem handleSort_twice_ascending_witness :
    ∃ txs'' : List Transaction,
      (handleSort (handleSort witSortState)).data =
          some { witData with transactions := some txs'' } ∧
        txs''.Perm [txLow, txHigh] ∧
        txs''.Pairwise (fun a b => txScore a ≤ txScore b) :=
  handleSort_twice_ascending witSortState witData [txLow, txHigh]
    rfl rfl rfl (by decide)

/-- The points drawn by the visualization effect.  The guard
if (!data?.transactions) return skips drawing when the data object or its
transactions field is absent; otherwise the map produces one point per
record (a NaN score still produces a point, with NaN coordinates). -/
def renderedPoints (cosF sinF : ℚ → ℚ) (angleOf : ℕ → ℚ)
    (data : Option ResponseData) : List ProjectedPoint :=
  match data with
  | none => []
  | some d =>
    match d.transactions with
    | none => []
    | some txs => project cosF sinF angleOf txs

/-- The rows of the table body: data?.transactions?.map renders nothing when
the chain is undefined, and one row per record otherwise (a record with a
NaN score still gets a row; its score cell shows the raw string). -/
def tableRows (data : Option ResponseData) : List Transaction :=
  match data with
  | none => []
  | some d =>
    match d.transactions with
    | none => []
    | some txs => txs

/-- A record whose anomaly_percentage does not parse (parseFloat is NaN). -/
def badScoreTx : Transaction := ⟨"t", "h", "f", "o", some 1, none, false, "LOW"⟩

/-- A response whose single record has a non-numeric score. -/
def badScoreData : ResponseData := ⟨some 1, some [badScoreTx]⟩

/-- Counterexample to C8 as stated: a response with one record whose
anomaly_percentage is non-numeric is not treated as an absent or empty
record list; the view still renders one projected point and one table row. -/
theorem malformed_counterexample :
    badScoreTx.anomaly_percentage = none ∧
      ¬ ((renderedPoints (fun _ => 1) (fun _ => 1) (fun _ => 0)
            (some badScoreData)).length = 0 ∧
          tableRows (some badScoreData) = []) := by
  refine ⟨rfl, ?_⟩
  intro h
  have := h.1
  simp [renderedPoints, badScoreData, project] at this

/-- C8 amended: a missing data object or missing transactions key is
tolerated by rendering zero points and zero rows, with every rendering
function total (no exception); a record list that is present is always
rendered in full, one point and one row per record, even when a score is
non-numeric. -/
theorem malformed_tolerated (cosF sinF : ℚ → ℚ) (angleOf : ℕ → ℚ) :
    renderedPoints cosF sinF angleOf none = [] ∧
      tableRows none = [] ∧
      (∀ d : ResponseData, d.transactions = none →
        renderedPoints cosF sinF angleOf (some d) = [] ∧ tableRows (some d) = []) ∧
      (∀ (d : ResponseData) (txs : List Transaction), d.transactions = some txs →
        (renderedPoints cosF sinF angleOf (some d)).length = txs.length ∧
          tableRows (some d) = txs) := by
  refine ⟨rfl, rfl, fun d h => ?_, fun d txs h => ?_⟩
  · constructor <;> simp [renderedPoints, tableRows, h]
  · constructor
    · simp [renderedPoints, h, project]
    · simp [tableRows, h]

/-- Witness for the amended C8 at a response with a missing transactions
key. -/
theorem malformed_tolerated_witness :
    ResponseData.transactions ⟨some 0, none⟩ = none ∧
      renderedPoints (fun _ => 1) (fun _ => 1) (fun _ => 0) (some ⟨some 0, none⟩) = [] ∧
      tableRows (some ⟨some 0, none⟩) = [] :=
  ⟨rfl,
    ((malformed_tolerated (fun _ => 1) (fun _ => 1) (fun _ => 0)).2.2.1
      ⟨some 0, none⟩ rfl).1,
    ((malformed_tolerated (fun _ => 1) (fun _ => 1) (fun _ => 0)).2.2.1
      ⟨some 0, none⟩ rfl).2⟩

/-- The three mutually exclusive screens App can return. -/
inductive View where
  | loadingView
  | errorView (msg : String)
  | mainView (data : Option ResponseData)
  deriving Repr, DecidableEq

/-- The outcome of one awaited GET: axios resolves with the parsed body on a
2xx response and rejects on a network error or non-2xx status. -/
inductive FetchResult where
  | success (payload : ResponseData)
  | failure
  deriving Repr, DecidableEq

/-- The generic message set by the catch block of fetchData. -/
def errorMessage : String := "Error fetching data, please refresh the page"

/-- One complete run of fetchData: setLoading(true), await the GET; on
success setData(response.data) and setError(null), on failure setError(the
generic message) with data untouched; finally setLoading(false). -/
def fetchData (st : AppState) (res : FetchResult) : AppState :=
  match res with
  | FetchResult.success payload =>
    { st with data := some payload, error := none, loading := false }
  | FetchResult.failure =>
    { st with error := some errorMessage, loading := false }

/-- The render dispatch of App: the spinner while loading, otherwise the
error screen replacing the whole page whenever error is set (the only error
string used is non-empty, hence truthy), otherwise the main view built from
data. -/
def render (st : AppState) : View :=
  if st.loading then View.loadingView
  else
    match st.error with
    | some msg => View.errorView msg
    | none => View.mainView st.data

/-- C9: a failed fetch is caught and converted into the single generic error
message, which replaces the main view entirely while the stored record list
is left unchanged; a subsequent successful fetch clears the error and the
main view returns. -/
theorem fetch_error_boundary (st : AppState) :
    (fetchData st FetchResult.failure).error = some errorMessage ∧
      (fetchData st FetchResult.failure).data = st.data ∧
      render (fetchData st FetchResult.failure) = View.errorView errorMessage ∧
      ∀ p : ResponseData,
        (fetchData st (FetchResult.success p)).error = none ∧
          render (fetchData st (FetchResult.success p)) = View.mainView (some p) := by
  refine ⟨rfl, rfl, ?_, fun p => ⟨rfl, ?_⟩⟩ <;> simp [render, fetchData]

end AnomalyDashboard
